import Mathlib

/-!
Shallow embedding of the tremor-runtime offramp (sink) layer:
the Elastic offramp (src/src/dynamic/offramp/elastic.rs), the File
offramp (src/src/dynamic/offramp/file.rs), the NewRelic offramp
(src/src/offramp/newrelic.rs) and the pipeline error kinds
(src/tremor-pipeline/src/errors.rs).

Machine integers are modelled as `Nat`/`Int`; `usize` wrap-around is
made explicit with `% 2 ^ 64` where it matters.  Fallible Rust code
returns `Except`/`Option`; a Rust panic is modelled as `Option.none`.
External effects (the HTTP flush to Elasticsearch, the channel send to a
pipeline) are passed in as explicit outcome parameters.
-/

/-- JSON values as produced by serde_json (numbers restricted to the
integers actually used by the embedded code paths: latency `u64` and
timestamps `i64`). Object fields are kept in insertion order. -/
inductive Json where
  | null : Json
  | bool (b : Bool) : Json
  | num (n : Int) : Json
  | str (s : String) : Json
  | arr (xs : List Json) : Json
  | obj (fields : List (String × Json)) : Json
deriving Repr

/-- `serde_json::Value::get(key)` on an object; `None` on other variants. -/
def Json.get (v : Json) (key : String) : Option Json :=
  match v with
  | .obj fields => fields.lookup key
  | _ => none

/-- `Value::as_i64` restricted to the integral model. -/
def Json.asI64 (v : Json) : Option Int :=
  match v with
  | .num n => some n
  | _ => none

/-- `tremor_pipeline::EventValue` (the variants used in the embedded
files: `Raw` bytes, `JSON`, and `None`). -/
inductive EventValue where
  | Raw (bytes : List Nat) : EventValue
  | JSON (j : Json) : EventValue
  | None : EventValue
deriving Repr

/-- `tremor_pipeline::MetaMap`: a map from string keys to JSON values,
modelled as an association list looked up by first match. -/
abbrev MetaMap := List (String × Json)

/-- `crate::url::TremorURL`, reduced to its textual form. -/
abbrev TremorURL := String

/-- `crate::system::PipelineAddr`: the handle a sink uses to deliver an
Insight to a pipeline.  The only observable the embedded code depends on
is whether the underlying channel is still open (a `send` on a closed
channel returns `Err`). -/
structure PipelineAddr where
  isOpen : Bool
deriving Repr

/-- `dynamic::Event` (also the shape used for Insights, which are plain
events flowing backward). -/
structure Event where
  is_batch : Bool
  id : Nat
  meta : MetaMap
  value : EventValue
  ingest_ns : Nat
  kind : Option String
deriving Repr

/-- `crate::ValueType`, only mentioned by the `TypeError` error variant;
its own definition is outside the embedded sources, so it is kept
abstract as its display name. -/
abbrev ValueType := String

/-- The error kinds of src/tremor-pipeline/src/errors.rs (the
`error_chain!` block), together with `Msg` for the untyped
`String -> Error` conversions (`"...".into()`) that the offramps use. -/
inductive ErrorKind where
  | Msg (s : String) : ErrorKind
  | CyclicGraphError (g : String) : ErrorKind
  | MissingOpConfig (e : String) : ErrorKind
  | ExtraOpConfig (e : String) : ErrorKind
  | TypeError (l : String) (expected got : ValueType) : ErrorKind
  | UnknownOp (n o : String) : ErrorKind
  | MissingSteps (t : String) : ErrorKind
  | BadOpConfig (e : String) : ErrorKind
  | UnknownNamespace (n : String) : ErrorKind
  | UnknownSubPipeline (p : String) : ErrorKind
  | UnknownPipeline (p : String) : ErrorKind
  | PipelineStartError (p : String) : ErrorKind
  | OnrampError (i : Nat) : ErrorKind
  | OnrampMissingPipeline (o : String) : ErrorKind
  | InvalidInfluxData (s : String) : ErrorKind
  | InvalidJsonData (s : String) : ErrorKind
  | BadOutputid (i : Nat) : ErrorKind
deriving Repr

/-- True exactly on the `MissingOpConfig` error kind. -/
def ErrorKind.isMissingOpConfig : ErrorKind → Bool
  | .MissingOpConfig _ => true
  | _ => false

/-- True when a `Result` failed specifically with `MissingOpConfig`. -/
def resultIsMissingOpConfig {α : Type} (r : Except ErrorKind α) : Bool :=
  match r with
  | .error e => e.isMissingOpConfig
  | .ok _ => false

/-- The id printed by the `display` clause of `BadOutputid(i)` in
errors.rs: `i - 1` computed in `usize` arithmetic, as in a checked
(debug) build where the subtraction panics for `i = 0`
(panic ↦ `none`). -/
def badOutputidShown (i : Nat) : Option Nat :=
  if i = 0 then none else some (i - 1)

/-- The same displayed id under two's-complement wrap-around (release
build) semantics on 64-bit `usize`. -/
def badOutputidShownWrapping (i : Nat) : Nat :=
  (i + (2 ^ 64 - 1)) % 2 ^ 64

/-- The `display` strings of errors.rs for the variants whose format is
a straight splice (placeholders inlined); `BadOutputid` performs the
`i - 1` subtraction, which panics for `i = 0` in a checked build. -/
def ErrorKind.display : ErrorKind → Option String
  | .Msg s => some s
  | .CyclicGraphError g => some ("Cycle detected in graph: " ++ g)
  | .MissingOpConfig e => some ("Operator config for " ++ e ++ " is missing")
  | .ExtraOpConfig e => some ("Operator " ++ e ++ " has a config but can't be configured")
  | .TypeError l expected got =>
      some ("expected type '" ++ expected ++ "' but found type '" ++ got ++ "' in " ++ l)
  | .UnknownOp n o => some ("Unknown operator: " ++ n ++ "::" ++ o)
  | .MissingSteps t => some ("missing steps in: '" ++ t ++ "'")
  | .BadOpConfig e => some ("Operator config has a bad syntax: " ++ e)
  | .UnknownNamespace n => some ("Unknown namespace: " ++ n)
  | .UnknownSubPipeline p => some ("The sub-pipelines '" ++ p ++ "' is not defined")
  | .UnknownPipeline p => some ("The pipelines '" ++ p ++ "' is not defined")
  | .PipelineStartError p => some ("Failed to start pipeline '" ++ p ++ "'")
  | .OnrampError i => some ("Error in onramp '" ++ toString i ++ "'")
  | .OnrampMissingPipeline o => some ("The onramp '" ++ o ++ "' is missing a pipeline")
  | .InvalidInfluxData s => some ("Invalid Influx Line Protocol data: " ++ s)
  | .InvalidJsonData s => some ("Invalid JSON data: " ++ s)
  | .BadOutputid i =>
      (badOutputidShown i).map (fun n => "Bad output pipeline id " ++ toString n)

/-- The pipeline registration table shared by every offramp:
`pipelines: HashMap<TremorURL, PipelineAddr>`, modelled as an
association list with unique keys. -/
abbrev Pipelines := List (TremorURL × PipelineAddr)

/-- `add_pipeline`: `self.pipelines.insert(id, addr)` — insert or
overwrite the entry for `id`. -/
def addPipeline (ps : Pipelines) (id : TremorURL) (addr : PipelineAddr) : Pipelines :=
  (id, addr) :: ps.filter (fun p => !(p.1 == id))

/-- `remove_pipeline`: `self.pipelines.remove(&id); self.pipelines.is_empty()`
— remove the entry for `id` and report whether the table is now empty.
Returns (is-now-empty, new table). -/
def removePipeline (ps : Pipelines) (id : TremorURL) : Bool × Pipelines :=
  let ps' := ps.filter (fun p => !(p.1 == id))
  (ps'.isEmpty, ps')

/-- serde_json string escaping, reduced to the two characters the
embedded payloads can contain specially (backslash and quote). -/
def jsonEscapeChar (c : Char) : String :=
  if c = '\\' then "\\\\" else if c = '"' then "\\\"" else String.singleton c

/-- Escape a string for inclusion in a JSON document. -/
def jsonEscape (s : String) : String :=
  String.join (s.toList.map jsonEscapeChar)

mutual

/-- `serde_json::to_string` / `Value::to_string`: compact serialization
with object fields in stored order. -/
def Json.toJsonString : Json → String
  | .null => "null"
  | .bool true => "true"
  | .bool false => "false"
  | .num n => toString n
  | .str s => "\"" ++ jsonEscape s ++ "\""
  | .arr xs => "[" ++ jsonArrString xs ++ "]"
  | .obj fs => "\x7b" ++ jsonObjString fs ++ "\x7d"

/-- Comma-separated serialization of an array's elements. -/
def jsonArrString : List Json → String
  | [] => ""
  | [x] => Json.toJsonString x
  | x :: y :: xs => Json.toJsonString x ++ "," ++ jsonArrString (y :: xs)

/-- Comma-separated serialization of an object's fields. -/
def jsonObjString : List (String × Json) → String
  | [] => ""
  | [(k, v)] => "\"" ++ jsonEscape k ++ "\":" ++ Json.toJsonString v
  | (k, v) :: f :: fs =>
      "\"" ++ jsonEscape k ++ "\":" ++ Json.toJsonString v ++ "," ++ jsonObjString (f :: fs)

end

/-- The error cases of `AsyncSink::dequeue` (`crate::async_sink::SinkDequeueError`,
as matched on in elastic.rs). -/
inductive SinkDequeueError where
  | NotReady : SinkDequeueError
  | Empty : SinkDequeueError
deriving Repr, DecidableEq

/-- Modelled from the spec: `AsyncSink` (src/async_sink.rs is not among
the sources; elastic.rs only imports and calls it).  Per spec §4.1 it
tracks a FIFO of outstanding asynchronous work units against a fixed
concurrency limit.  Each outstanding entry records whether its worker
has already finished — completion is driven by the external worker
pool, so the flag is supplied by the environment at enqueue time. -/
structure AsyncSink where
  limit : Nat
  outstanding : List Bool
deriving Repr, DecidableEq

/-- Modelled from the spec: `AsyncSink::new(limit)` — empty outstanding set. -/
def AsyncSink.new (limit : Nat) : AsyncSink :=
  { limit := limit, outstanding := [] }

/-- Modelled from the spec: `has_capacity()` is `outstanding_count < limit`. -/
def AsyncSink.has_capacity (q : AsyncSink) : Bool :=
  q.outstanding.length < q.limit

/-- Modelled from the spec: `enqueue(work_handle)` registers a new
outstanding unit; fails with a capacity error when the outstanding
count has reached the limit, changing no state on failure. -/
def AsyncSink.enqueue (q : AsyncSink) (handle : Bool) : Except ErrorKind AsyncSink :=
  if q.outstanding.length < q.limit then
    .ok { q with outstanding := q.outstanding ++ [handle] }
  else
    .error (.Msg "CapacityExceeded")

/-- Modelled from the spec: `dequeue()` — non-blocking FIFO poll:
`Empty` when nothing is outstanding, `Completed` (removing the unit)
when the next-in-line unit has finished, `NotReady` otherwise. -/
def AsyncSink.dequeue (q : AsyncSink) : Except SinkDequeueError Unit × AsyncSink :=
  match q.outstanding with
  | [] => (.error .Empty, q)
  | done :: rest =>
      if done then (.ok (), { q with outstanding := rest })
      else (.error .NotReady, q)

/-- elastic.rs `Config`: endpoint list plus concurrency (default 4 via
`dflt::d_4`), assumed already materialized from YAML (spec §1 treats
raw-format parsing as external). -/
structure ElasticConfig where
  endpoints : List String
  concurrency : Nat
deriving Repr, DecidableEq

/-- elastic.rs `Destination`: a built client plus its base url.  The
client is fully determined by the url it was built from
(`SyncClientBuilder::new().base_url(s).build().unwrap()`). -/
structure Destination where
  url : String
deriving Repr, DecidableEq

/-- elastic.rs `struct Elastic` (the thread pool is modelled implicitly:
spawned closures are returned as data; the hostname lookup is modelled
by its fallback value, no embedded path depends on it). -/
structure Elastic where
  client_idx : Nat
  clients : List Destination
  config : ElasticConfig
  queue : AsyncSink
  hostname : String
  pipelines : Pipelines
deriving Repr

/-- `Elastic::from_config` (elastic.rs lines 90-124): requires a
configuration; builds one client per endpoint, a pool and queue sized
`config.concurrency`, and an empty pipeline table.  (`ThreadPool::new`
panics for `concurrency = 0`, so states constructed from configs use a
positive concurrency.) -/
def Elastic.from_config (config : Option ElasticConfig) : Except ErrorKind Elastic :=
  match config with
  | some config =>
      .ok { client_idx := 0
            clients := config.endpoints.map (fun s => { url := s })
            config := config
            queue := AsyncSink.new config.concurrency
            hostname := "tremor-host.local"
            pipelines := [] }
  | none => .error (.Msg "Elastic offramp requires a configuration.")

/-- One `PipelineMsg::Insight` send attempt: the target pipeline id and
whether the channel accepted it (`ok = false` models `send` returning
`Err` on a closed channel, which is only logged). -/
structure SendAttempt where
  pid : TremorURL
  ok : Bool
deriving Repr, DecidableEq

/-- What one admitted asynchronous unit does (the closure body passed to
`pool.execute` in elastic.rs lines 149-175): the destination and payload
it flushes, the single Insight it constructs, and its send attempts. -/
structure WorkResult where
  destination : Destination
  payload : String
  insight : Event
  attempts : List SendAttempt
deriving Repr

/-- The closure spawned by `enqueue_send_future` (elastic.rs 149-175):
flush the payload (outcome supplied by the environment: `Ok latency` or
an error), build one Insight whose metadata is `time -> latency` on
success or `error -> "Failed to send to ES"` on failure, with no
payload value, and send it to every pipeline of the snapshot — a failed
send is logged and the loop continues. -/
def sendWorker (destination : Destination) (payload : String)
    (outcome : Except ErrorKind Nat) (now : Nat) (pipelines : Pipelines) : WorkResult :=
  let m : MetaMap :=
    match outcome with
    | .ok t => [("time", Json.num (Int.ofNat t))]
    | .error _ => [("error", Json.str "Failed to send to ES")]
  let insight : Event :=
    { is_batch := false, id := 0, meta := m, value := EventValue.None
      ingest_ns := now, kind := none }
  { destination := destination
    payload := payload
    insight := insight
    attempts := pipelines.map (fun p => { pid := p.1, ok := p.2.isOpen }) }

/-- The round-robin step of elastic.rs line 141:
`self.client_idx = (self.client_idx + 1) % self.clients.len()`. -/
def nextClientIdx (idx k : Nat) : Nat :=
  (idx + 1) % k

/-- `Elastic::enqueue_send_future` (elastic.rs 140-178): advance the
round-robin index (`% 0` panics — `none` — when the client list is
empty), snapshot the pipeline table, spawn the send closure on the
pool, then register the receiver with the queue; a full queue makes
`enqueue` fail after the work was already spawned. -/
def Elastic.enqueue_send_future (st : Elastic) (payload : String)
    (outcome : Except ErrorKind Nat) (now : Nat) :
    Option (Except ErrorKind Unit × Elastic × WorkResult) :=
  if h : st.clients.length = 0 then
    none
  else
    let idx := nextClientIdx st.client_idx st.clients.length
    let destination := st.clients.get ⟨idx, Nat.mod_lt _ (Nat.pos_of_ne_zero h)⟩
    let work := sendWorker destination payload outcome now st.pipelines
    match st.queue.enqueue false with
    | .error e => some (.error e, { st with client_idx := idx }, work)
    | .ok q' => some (.ok (), { st with client_idx := idx, queue := q' }, work)

/-- Result of one `maybe_enque` call: what the caller got back, the
sink state afterwards, and the admitted work unit if one was spawned. -/
structure EnqueResult where
  result : Except ErrorKind Unit
  state : Elastic
  work : Option WorkResult
deriving Repr

/-- The fall-through branch of `maybe_enque` (elastic.rs 186-194):
attempt `enqueue_send_future`, mapping its failure to the
"Failed to enqueue send request to elastic" error. -/
def maybeEnqueProceed (st : Elastic) (payload : String)
    (outcome : Except ErrorKind Nat) (now : Nat) : Option EnqueResult :=
  match st.enqueue_send_future payload outcome now with
  | none => none
  | some (.error _, st2, w) =>
      some { result := .error (.Msg "Failed to enqueue send request to elastic")
             state := st2, work := some w }
  | some (.ok _, st2, w) =>
      some { result := .ok (), state := st2, work := some w }

/-- `Elastic::maybe_enque` (elastic.rs 179-196): poll `dequeue` once;
if it reports `NotReady` and the queue still has no capacity, drop the
payload and fail with the overload error; otherwise submit via
`enqueue_send_future`. -/
def Elastic.maybe_enque (st : Elastic) (payload : String)
    (outcome : Except ErrorKind Nat) (now : Nat) : Option EnqueResult :=
  let polled := st.queue.dequeue
  let st1 : Elastic := { st with queue := polled.2 }
  match polled.1 with
  | .error .NotReady =>
      if !polled.2.has_capacity then
        some { result := .error (.Msg "Dropped data due to es overload")
               state := st1, work := none }
      else
        maybeEnqueProceed st1 payload outcome now
  | _ => maybeEnqueProceed st1 payload outcome now

/-- The `if let Some(Value::String(x)) = event.meta.get(key)` pattern
of `Elastic::on_event`: the metadata value for `key` when it exists and
is a string, `none` otherwise. -/
def metaStr (m : MetaMap) (key : String) : Option String :=
  match m.lookup key with
  | some (Json.str s) => some s
  | _ => none

/-- True when a sub-event would trip the early `return` of
`Elastic::on_event`: no string `"index"` or no string `"doc_type"`
metadata. -/
def elasticMalformed (e : Event) : Bool :=
  (metaStr e.meta "index").isNone || (metaStr e.meta "doc_type").isNone

/-- The bulk action line built per sub-event (elastic.rs 222-244):
`json!({"index": {"_index": index, "_type": doc_type}})`, with a
`"pipeline"` field when the metadata carries one. -/
def elasticActionLine (index doc_type : String) (pipeline : Option String) : Json :=
  Json.obj [("index", Json.obj
    ([("_index", Json.str index), ("_type", Json.str doc_type)] ++
      (match pipeline with
       | some p => [("pipeline", Json.str p)]
       | none => [])))]

/-- The payload-building loop of `Elastic::on_event` (elastic.rs
204-253): per sub-event, read string metadata `"index"` and
`"doc_type"` (either missing or non-string triggers the early `return`,
modelled as `none` — the whole call produces nothing), optionally
`"pipeline"`, append the serialized action line plus newline, then the
serialized document plus newline when the value is JSON (a non-JSON
value is only logged; its document line is skipped and the loop
continues). -/
def buildPayload : List Event → Option String
  | [] => some ""
  | e :: rest =>
    match metaStr e.meta "index" with
    | none => none
    | some index =>
      match metaStr e.meta "doc_type" with
      | none => none
      | some doc_type =>
        let pipeline : Option String := metaStr e.meta "pipeline"
        let head := (elasticActionLine index doc_type pipeline).toJsonString ++ "\n"
        let body :=
          match e.value with
          | EventValue.JSON j => j.toJsonString ++ "\n"
          | _ => ""
        (buildPayload rest).map (fun tail => head ++ body ++ tail)

/-- `Elastic::on_event` (elastic.rs 201-255).  The incoming event is
represented by the list its `into_iter()` yields (per spec §4.2 a
non-batch event iterates as the singleton of itself, a batch as its
sub-events in order).  The payload loop either aborts the call
(malformed sub-event: state unchanged, nothing spawned) or the payload
is handed to `maybe_enque`, whose `Result` is discarded
(`let _ = ...`).  Returns the new state and the spawned work unit, if
any; `none` models a panic. -/
def Elastic.on_event (st : Elastic) (subEvents : List Event)
    (outcome : Except ErrorKind Nat) (now : Nat) : Option (Elastic × Option WorkResult) :=
  match buildPayload subEvents with
  | none => some (st, none)
  | some payload => (st.maybe_enque payload outcome now).map (fun r => (r.state, r.work))

/-- `Elastic::add_pipeline` (elastic.rs 259-261). -/
def Elastic.add_pipeline (st : Elastic) (id : TremorURL) (addr : PipelineAddr) : Elastic :=
  { st with pipelines := addPipeline st.pipelines id addr }

/-- `Elastic::remove_pipeline` (elastic.rs 262-265). -/
def Elastic.remove_pipeline (st : Elastic) (id : TremorURL) : Bool × Elastic :=
  let r := removePipeline st.pipelines id
  (r.1, { st with pipelines := r.2 })

/-- file.rs `Config`. -/
structure FileConfig where
  file : String
deriving Repr, DecidableEq

/-- file.rs `struct File`: the created file (modelled by its path and
the bytes written so far) plus the pipeline table. -/
structure FileOfframp where
  path : String
  contents : List Nat
  pipelines : Pipelines
deriving Repr

/-- `File::from_config` (file.rs 49-60): requires a configuration (the
error text says "Blackhole", copied from another offramp); on success
creates the file (creation is modelled as succeeding — its failure is
an IO error outside the claims) and an empty pipeline table. -/
def FileOfframp.from_config (config : Option FileConfig) : Except ErrorKind FileOfframp :=
  match config with
  | some config => .ok { path := config.file, contents := [], pipelines := [] }
  | none => .error (.Msg "Blackhole offramp requires a config")

/-- The write loop of `File::on_event` (file.rs 66-72): per sub-event,
if encoding yields `Ok(Raw bytes)` write the bytes and a newline (the
`unwrap`ed writes are modelled as succeeding); any other encode result
skips the sub-event and the loop continues. -/
def fileWrites (encode : EventValue → Except ErrorKind EventValue) : List Event → List Nat
  | [] => []
  | e :: rest =>
    match encode e.value with
    | .ok (EventValue.Raw raw) => raw ++ [10] ++ fileWrites encode rest
    | _ => fileWrites encode rest

/-- `File::on_event` (file.rs 63-73): append the encoded sub-events to
the file.  Second component: the Insight send attempts it performs —
the body never touches the pipeline table, so there are none. -/
def FileOfframp.on_event (st : FileOfframp)
    (encode : EventValue → Except ErrorKind EventValue)
    (subEvents : List Event) : FileOfframp × List SendAttempt :=
  ({ st with contents := st.contents ++ fileWrites encode subEvents }, [])

/-- `File::add_pipeline` (file.rs 74-76). -/
def FileOfframp.add_pipeline (st : FileOfframp) (id : TremorURL) (addr : PipelineAddr) : FileOfframp :=
  { st with pipelines := addPipeline st.pipelines id addr }

/-- `File::remove_pipeline` (file.rs 77-80). -/
def FileOfframp.remove_pipeline (st : FileOfframp) (id : TremorURL) : Bool × FileOfframp :=
  let r := removePipeline st.pipelines id
  (r.1, { st with pipelines := r.2 })

/-- newrelic.rs `Key`. -/
inductive Key where
  | LicenseKey (s : String) : Key
  | InsertKey (s : String) : Key
deriving Repr, DecidableEq

/-- newrelic.rs `Region` (the test-only variant omitted). -/
inductive Region where
  | Usa : Region
  | Europe : Region
deriving Repr, DecidableEq

/-- newrelic.rs `Config`. -/
structure NewRelicConfig where
  key : Key
  compress_logs : Bool
  region : Region
deriving Repr, DecidableEq

/-- newrelic.rs `NewRelicLog`. -/
structure NewRelicLog where
  timestamp : Int
  message : String
deriving Repr, DecidableEq

/-- newrelic.rs `struct NewRelic` (postprocessors are external to the
claims and omitted). -/
structure NewRelic where
  config : NewRelicConfig
  pipelines : Pipelines
deriving Repr

/-- `NewRelic::from_config` (newrelic.rs 93-104). -/
def NewRelic.from_config (config : Option NewRelicConfig) : Except ErrorKind NewRelic :=
  match config with
  | some config => .ok { config := config, pipelines := [] }
  | none => .error (.Msg "Missing config for newrelic offramp")

/-- `NewRelic::value_to_newrelic_log` (newrelic.rs 212-222): timestamp
from the value's `"timestamp"` field when it is an integer, else the
current time; the message is the value serialized (serialization of an
already-parsed value does not fail). -/
def NewRelic.value_to_newrelic_log (now : Int) (value : Json) : Except ErrorKind NewRelicLog :=
  .ok { timestamp := ((value.get "timestamp").bind Json.asI64).getD now
        message := value.toJsonString }

/-- `.collect::<Result<Vec<_>>>()`: succeed with all values, or fail
with the first error, discarding the rest. -/
def collectResults {ε α : Type} : List (Except ε α) → Except ε (List α)
  | [] => .ok []
  | .error e :: _ => .error e
  | .ok a :: rest => (collectResults rest).map (fun xs => a :: xs)

/-- `NewRelic::on_event` (newrelic.rs 113-127): convert every iterated
value to a log entry, collected through `Result` (one failure rejects
the whole batch via `?`), then `block_on(self.send(&payload))?` — the
send outcome (supplied by the environment) is propagated to the caller
with `?`.  Second component: the Insight send attempts performed —
newrelic.rs never sends to its pipeline table, so there are none. -/
def NewRelic.on_event (st : NewRelic) (values : List Json)
    (sendOutcome : Except ErrorKind Unit) (now : Int) :
    Except ErrorKind Unit × List SendAttempt :=
  match collectResults (values.map (NewRelic.value_to_newrelic_log now)) with
  | .error e => (.error e, [])
  | .ok _ =>
    match sendOutcome with
    | .error e => (.error e, [])
    | .ok _ => (.ok (), [])

/-- `NewRelic::add_pipeline` (newrelic.rs 133-135). -/
def NewRelic.add_pipeline (st : NewRelic) (id : TremorURL) (addr : PipelineAddr) : NewRelic :=
  { st with pipelines := addPipeline st.pipelines id addr }

/-- `NewRelic::remove_pipeline` (newrelic.rs 137-140). -/
def NewRelic.remove_pipeline (st : NewRelic) (id : TremorURL) : Bool × NewRelic :=
  let r := removePipeline st.pipelines id
  (r.1, { st with pipelines := r.2 })

/-- The destination indices used by `n` successive admitted submissions
starting from round-robin index `idx` with `k` configured clients
(each submission runs the step of elastic.rs line 141 and uses the new
index). -/
def rrIndices (idx k : Nat) : Nat → List Nat
  | 0 => []
  | Nat.succ n => nextClientIdx idx k :: rrIndices (nextClientIdx idx k) k n

/-! Concrete fixtures used to evaluate the embedded operations. -/

/-- A pipeline id. -/
def pidOne : TremorURL := "tremor://localhost/pipeline/main"

/-- A second pipeline id. -/
def pidTwo : TremorURL := "tremor://localhost/pipeline/aux"

/-- A pipeline handle whose channel is open. -/
def addrOpen : PipelineAddr := { isOpen := true }

/-- A pipeline handle whose channel is closed. -/
def addrClosed : PipelineAddr := { isOpen := false }

/-- One Elasticsearch destination. -/
def destOne : Destination := { url := "http://127.0.0.1:9200" }

/-- An Elastic sink with one endpoint, concurrency 1, an idle queue and
two registered pipelines (one channel open, one closed). -/
def elasticReady : Elastic :=
  { client_idx := 0
    clients := [destOne]
    config := { endpoints := ["http://127.0.0.1:9200"], concurrency := 1 }
    queue := { limit := 1, outstanding := [] }
    hostname := "tremor-host.local"
    pipelines := [(pidOne, addrOpen), (pidTwo, addrClosed)] }

/-- The same sink while its single admitted unit is still in flight:
the queue is at capacity and the unit has not completed. -/
def elasticFull : Elastic :=
  { elasticReady with queue := { limit := 1, outstanding := [false] } }

/-- An Elastic sink state whose endpoint list is empty (obtainable from
`from_config` with `endpoints: []`). -/
def elasticNoClients : Elastic :=
  { elasticReady with clients := [], config := { endpoints := [], concurrency := 1 } }

/-- A well-formed sub-event for the Elastic sink: string `index` and
`doc_type` metadata and a JSON value. -/
def evGood : Event :=
  { is_batch := false, id := 0
    meta := [("index", Json.str "tremor"), ("doc_type", Json.str "log")]
    value := EventValue.JSON (Json.obj [])
    ingest_ns := 0, kind := none }

/-- A malformed sub-event: no `index`/`doc_type` metadata at all. -/
def evBad : Event :=
  { is_batch := false, id := 1, meta := [], value := EventValue.JSON (Json.obj [])
    ingest_ns := 0, kind := none }

/-- A File sink with one registered pipeline. -/
def fileReady : FileOfframp :=
  { path := "/tmp/out.log", contents := [], pipelines := [(pidOne, addrOpen)] }

/-- A codec whose encode returns raw bytes for JSON values and fails on
everything else. -/
def codecRawOnJson : EventValue → Except ErrorKind EventValue :=
  fun v =>
    match v with
    | EventValue.JSON _ => .ok (EventValue.Raw [65, 66])
    | _ => .error (.Msg "cannot encode")

/-- A NewRelic sink with one registered pipeline. -/
def newrelicReady : NewRelic :=
  { config := { key := Key.LicenseKey "k", compress_logs := false, region := Region.Usa }
    pipelines := [(pidOne, addrOpen)] }

/-! Helper lemmas. -/

/-- Looking a different key up is unaffected by filtering away `id`. -/
theorem lookup_filter_ne (ps : Pipelines) (id id2 : TremorURL) (h : (id2 == id) = false) :
    (ps.filter (fun p => !(p.1 == id))).lookup id2 = ps.lookup id2 := by
  induction ps with
  | nil => rfl
  | cons p ps ih =>
    rcases p with ⟨k, v⟩
    rw [List.filter_cons]
    cases hk : k == id with
    | true =>
      have h2 : (id2 == k) = false := by rw [eq_of_beq hk]; exact h
      simp [List.lookup_cons, hk, h2, ih]
    | false =>
      cases hkk : id2 == k <;> simp [List.lookup_cons, hk, hkk, ih]

/-- C7: `add_pipeline(id, handle)` inserts or overwrites the entry for
`id` (the lookup for `id` afterwards yields the new handle, all other
lookups are unchanged); `remove_pipeline(id)` removes the entry and
returns `true` exactly when the table is empty afterwards; in
particular removing the last registered pipeline returns `true`, and
`add_pipeline(id)` immediately followed by `remove_pipeline(id)` on a
previously empty table returns `true`. -/
theorem add_remove_pipeline_spec :
    (∀ (ps : Pipelines) (id : TremorURL) (addr : PipelineAddr),
        (addPipeline ps id addr).lookup id = some addr) ∧
    (∀ (ps : Pipelines) (id id2 : TremorURL) (addr : PipelineAddr), id2 ≠ id →
        (addPipeline ps id addr).lookup id2 = ps.lookup id2) ∧
    (∀ (ps : Pipelines) (id : TremorURL),
        ((removePipeline ps id).1 = true ↔ (removePipeline ps id).2 = [])) ∧
    (∀ (id : TremorURL) (addr : PipelineAddr),
        (removePipeline [(id, addr)] id).1 = true) ∧
    (∀ (id : TremorURL) (addr : PipelineAddr),
        (removePipeline (addPipeline [] id addr) id).1 = true) := by
  refine ⟨?_, ?_, ?_, ?_, ?_⟩
  · intro ps id addr
    simp [addPipeline, List.lookup_cons]
  · intro ps id id2 addr h
    have hl : (id2 == id) = false := beq_eq_false_iff_ne.mpr h
    simp [addPipeline, List.lookup_cons, hl, lookup_filter_ne ps id id2 hl]
  · intro ps id
    simp [removePipeline, List.isEmpty_iff]
  · intro id addr
    simp [removePipeline]
  · intro id addr
    simp [removePipeline, addPipeline]

/-- Witness for C7 at concrete inputs. -/
theorem add_remove_pipeline_spec_witness :
    (addPipeline [] pidOne addrOpen).lookup pidOne = some addrOpen ∧
    (addPipeline [(pidTwo, addrClosed)] pidOne addrOpen).lookup pidTwo =
      ([(pidTwo, addrClosed)] : Pipelines).lookup pidTwo ∧
    (removePipeline [(pidOne, addrOpen)] pidOne).1 = true ∧
    (removePipeline (addPipeline [] pidOne addrOpen) pidOne).1 = true :=
  ⟨add_remove_pipeline_spec.1 [] pidOne addrOpen,
   add_remove_pipeline_spec.2.1 [(pidTwo, addrClosed)] pidOne pidTwo addrOpen (by decide),
   add_remove_pipeline_spec.2.2.2.1 pidOne addrOpen,
   add_remove_pipeline_spec.2.2.2.2 pidOne addrOpen⟩

/-- C10: formatting `BadOutputid(i)` displays `i - 1` computed in
`usize` arithmetic: for `1 ≤ i < 2^64` the displayed id is one less
than the stored id (in both checked and wrap-around semantics), while
for `i = 0` the subtraction wraps to `2^64 - 1` under wrap-around
semantics and panics (no display) in checked builds. -/
theorem badOutputid_display (i : Nat) (h1 : 1 ≤ i) (h2 : i < 2 ^ 64) :
    badOutputidShownWrapping i = i - 1 ∧
    badOutputidShown i = some (i - 1) ∧
    ErrorKind.display (ErrorKind.BadOutputid i) =
      some ("Bad output pipeline id " ++ toString (i - 1)) ∧
    badOutputidShownWrapping 0 = 2 ^ 64 - 1 ∧
    badOutputidShown 0 = none ∧
    ErrorKind.display (ErrorKind.BadOutputid 0) = none := by
  have hi0 : i ≠ 0 := by omega
  have hwrap : badOutputidShownWrapping i = i - 1 := by
    unfold badOutputidShownWrapping
    have : i + (2 ^ 64 - 1) = (i - 1) + 2 ^ 64 := by omega
    rw [this, Nat.add_mod_right, Nat.mod_eq_of_lt (by omega)]
  refine ⟨hwrap, ?_, ?_, ?_, rfl, rfl⟩
  · simp [badOutputidShown, hi0]
  · simp [ErrorKind.display, badOutputidShown, hi0]
  · unfold badOutputidShownWrapping
    rw [Nat.zero_add, Nat.mod_eq_of_lt (by omega)]

/-- Witness for C10 at `i = 5`. -/
theorem badOutputid_display_witness :
    badOutputidShownWrapping 5 = 4 ∧
    badOutputidShown 5 = some 4 ∧
    ErrorKind.display (ErrorKind.BadOutputid 5) = some ("Bad output pipeline id " ++ toString 4) ∧
    badOutputidShownWrapping 0 = 2 ^ 64 - 1 ∧
    badOutputidShown 0 = none ∧
    ErrorKind.display (ErrorKind.BadOutputid 0) = none :=
  badOutputid_display 5 (by decide) (by norm_num)

/-- C6 counterexample: constructing the File offramp from `config = none`
does fail and produces no offramp, but the error is an ad-hoc string
(`"Blackhole offramp requires a config"` — not even naming the right
offramp) rather than the `MissingOpConfig` error kind. -/
theorem from_config_none_cex :
    resultIsMissingOpConfig (FileOfframp.from_config none) = false ∧
    (FileOfframp.from_config none).isOk = false ∧
    FileOfframp.from_config none =
      Except.error (ErrorKind.Msg "Blackhole offramp requires a config") :=
  ⟨rfl, rfl, rfl⟩

/-- C6 amended: each offramp requiring configuration fails on
`config = none` and produces no offramp object, but with an ad-hoc
string error (`Msg`), not with the `MissingOpConfig` error kind of the
pipeline error taxonomy, and without naming the node. -/
theorem from_config_none_plain_string_error :
    FileOfframp.from_config none =
      Except.error (ErrorKind.Msg "Blackhole offramp requires a config") ∧
    Elastic.from_config none =
      Except.error (ErrorKind.Msg "Elastic offramp requires a configuration.") ∧
    NewRelic.from_config none =
      Except.error (ErrorKind.Msg "Missing config for newrelic offramp") ∧
    resultIsMissingOpConfig (FileOfframp.from_config none) = false ∧
    resultIsMissingOpConfig (Elastic.from_config none) = false ∧
    resultIsMissingOpConfig (NewRelic.from_config none) = false :=
  ⟨rfl, rfl, rfl, rfl, rfl, rfl⟩

/-- C9: `from_config` succeeds on a configuration whose endpoint list
is empty, but every admitted submission then panics in
`enqueue_send_future` (`% 0` on `clients.len()`, modelled as `none`);
the non-panicking embedding requires a non-empty client list (for which
it always returns a value). -/
theorem empty_endpoints_panic :
    ((Elastic.from_config (some { endpoints := [], concurrency := 4 })).isOk = true) ∧
    (∀ (st : Elastic) (payload : String) (outcome : Except ErrorKind Nat) (now : Nat),
        st.clients = [] → st.enqueue_send_future payload outcome now = none) ∧
    (∀ (st : Elastic) (payload : String) (outcome : Except ErrorKind Nat) (now : Nat),
        st.clients ≠ [] → (st.enqueue_send_future payload outcome now).isSome = true) := by
  refine ⟨rfl, ?_, ?_⟩
  · intro st payload outcome now h
    have hlen : st.clients.length = 0 := by simp [h]
    simp [Elastic.enqueue_send_future, hlen]
  · intro st payload outcome now h
    have hlen : st.clients.length ≠ 0 := by
      simpa [List.length_eq_zero] using h
    unfold Elastic.enqueue_send_future
    rw [dif_neg hlen]
    cases hq : st.queue.enqueue false <;> simp

/-- Witness for C9: the state built from the empty-endpoint
configuration panics on submission; a state with one endpoint does not. -/
theorem empty_endpoints_panic_witness :
    elasticNoClients.enqueue_send_future "payload" (Except.ok 1) 0 = none ∧
    (elasticReady.enqueue_send_future "payload" (Except.ok 1) 0).isSome = true :=
  ⟨empty_endpoints_panic.2.1 elasticNoClients "payload" (Except.ok 1) 0 rfl,
   empty_endpoints_panic.2.2 elasticReady "payload" (Except.ok 1) 0 (by decide)⟩

/-- When the sink has clients and the queue has room, the fall-through
branch of `maybe_enque` admits the work: it returns `Ok`, spawns one
unit, and grows the outstanding set by exactly one handle. -/
theorem maybeEnqueProceed_ok (st : Elastic) (payload : String)
    (outcome : Except ErrorKind Nat) (now : Nat)
    (hcl : st.clients ≠ []) (hq : st.queue.outstanding.length < st.queue.limit) :
    ∃ er, maybeEnqueProceed st payload outcome now = some er ∧
      er.result = Except.ok () ∧ er.work.isSome = true ∧
      er.state.queue.outstanding.length = st.queue.outstanding.length + 1 ∧
      er.state.pipelines = st.pipelines := by
  have hlen : st.clients.length ≠ 0 := by simpa [List.length_eq_zero] using hcl
  have henq : st.queue.enqueue false =
      Except.ok { st.queue with outstanding := st.queue.outstanding ++ [false] } := by
    unfold AsyncSink.enqueue
    rw [if_pos hq]
  unfold maybeEnqueProceed Elastic.enqueue_send_future
  rw [dif_neg hlen, henq]
  refine ⟨_, rfl, rfl, rfl, ?_, rfl⟩
  simp

/-- C2: the gating protocol of `maybe_enque`.  For a sink with at least
one configured endpoint, a positive concurrency limit and an in-limit
outstanding set, the call first polls `dequeue` once; exactly when the
queue still has no capacity after that poll it refuses the work — the
caller gets the overload failure, nothing is spawned, the payload is
dropped (the queue is exactly the polled queue) — and otherwise the
work is admitted: the call returns `Ok` after enqueueing one handle. -/
theorem elastic_gating (st : Elastic) (payload : String)
    (outcome : Except ErrorKind Nat) (now : Nat)
    (hlim : 1 ≤ st.queue.limit)
    (hinv : st.queue.outstanding.length ≤ st.queue.limit)
    (hcl : st.clients ≠ []) :
    ∃ er, st.maybe_enque payload outcome now = some er ∧
      ((st.queue.dequeue.2.has_capacity = false) →
        er.result = Except.error (ErrorKind.Msg "Dropped data due to es overload") ∧
        er.work = none ∧
        er.state.queue = st.queue.dequeue.2) ∧
      ((st.queue.dequeue.2.has_capacity = true) →
        er.result = Except.ok () ∧
        er.work.isSome = true ∧
        er.state.queue.outstanding.length = st.queue.dequeue.2.outstanding.length + 1) := by
  cases houtst : st.queue.outstanding with
  | nil =>
    have hdq : st.queue.dequeue = (Except.error SinkDequeueError.Empty, st.queue) := by
      simp [AsyncSink.dequeue, houtst]
    have hcap : st.queue.has_capacity = true := by
      simp only [AsyncSink.has_capacity, houtst, List.length_nil, decide_eq_true_eq]
      omega
    obtain ⟨er, her, hres, hwork, hlen2, hpipes⟩ :=
      maybeEnqueProceed_ok st payload outcome now hcl (by rw [houtst]; simpa using hlim)
    refine ⟨er, ?_, ?_, ?_⟩
    · simpa [Elastic.maybe_enque, hdq] using her
    · intro hc
      rw [hdq] at hc
      simp [hcap] at hc
    · intro _
      exact ⟨hres, hwork, by rw [hdq]; simpa [houtst] using hlen2⟩
  | cons done rest =>
    cases done with
    | true =>
      have hdq : st.queue.dequeue =
          (Except.ok (), { st.queue with outstanding := rest }) := by
        simp [AsyncSink.dequeue, houtst]
      have hroom : rest.length < st.queue.limit := by
        rw [houtst] at hinv
        simp at hinv
        omega
      have hcap : ({ st.queue with outstanding := rest } : AsyncSink).has_capacity = true := by
        simp only [AsyncSink.has_capacity, decide_eq_true_eq]
        exact hroom
      obtain ⟨er, her, hres, hwork, hlen2, hpipes⟩ :=
        maybeEnqueProceed_ok { st with queue := { st.queue with outstanding := rest } }
          payload outcome now hcl hroom
      refine ⟨er, ?_, ?_, ?_⟩
      · simpa [Elastic.maybe_enque, hdq] using her
      · intro hc
        rw [hdq] at hc
        simp [hcap] at hc
      · intro _
        exact ⟨hres, hwork, by rw [hdq]; simpa using hlen2⟩
    | false =>
      have hdq : st.queue.dequeue = (Except.error SinkDequeueError.NotReady, st.queue) := by
        simp [AsyncSink.dequeue, houtst]
      by_cases hcap : st.queue.has_capacity = true
      · have hroom : st.queue.outstanding.length < st.queue.limit := by
          simpa [AsyncSink.has_capacity] using hcap
        obtain ⟨er, her, hres, hwork, hlen2, hpipes⟩ :=
          maybeEnqueProceed_ok st payload outcome now hcl hroom
        refine ⟨er, ?_, ?_, ?_⟩
        · simpa [Elastic.maybe_enque, hdq, hcap] using her
        · intro hc
          rw [hdq] at hc
          simp [hcap] at hc
        · intro _
          exact ⟨hres, hwork, by rw [hdq]; simpa using hlen2⟩
      · have hcapf : st.queue.has_capacity = false := by
          simpa using hcap
        refine ⟨{ result := Except.error (ErrorKind.Msg "Dropped data due to es overload")
                  state := { st with queue := st.queue }
                  work := none }, ?_, ?_, ?_⟩
        · simp [Elastic.maybe_enque, hdq, hcapf]
        · intro _
          exact ⟨rfl, rfl, by rw [hdq]⟩
        · intro hc
          rw [hdq] at hc
          rw [hcapf] at hc
          cases hc

/-- Witness for C2 at a sink whose single-slot queue holds one
unfinished unit: the poll reports `NotReady`, capacity is still absent,
and the call refuses with the overload error. -/
theorem elastic_gating_witness :
    ∃ er, elasticFull.maybe_enque "payload" (Except.ok 1) 0 = some er ∧
      ((elasticFull.queue.dequeue.2.has_capacity = false) →
        er.result = Except.error (ErrorKind.Msg "Dropped data due to es overload") ∧
        er.work = none ∧
        er.state.queue = elasticFull.queue.dequeue.2) ∧
      ((elasticFull.queue.dequeue.2.has_capacity = true) →
        er.result = Except.ok () ∧
        er.work.isSome = true ∧
        er.state.queue.outstanding.length = elasticFull.queue.dequeue.2.outstanding.length + 1) :=
  elastic_gating elasticFull "payload" (Except.ok 1) 0 (by decide) (by decide) (by decide)

/-- C3: every admitted asynchronous unit constructs exactly one
Insight: metadata `time -> latency` (and nothing else) when the
external operation succeeds, `error -> "Failed to send to ES"` when it
fails; the Insight carries no payload value and is not a batch; one
send is attempted per pipeline of the registration snapshot, in table
order, and an open pipeline receives its send even when other channels
are closed. -/
theorem insight_per_admitted_unit (st : Elastic) (payload : String)
    (outcome : Except ErrorKind Nat) (now : Nat) (hcl : st.clients ≠ []) :
    ∃ r st2 w, st.enqueue_send_future payload outcome now = some (r, st2, w) ∧
      (∀ t, outcome = Except.ok t →
        w.insight.meta = [("time", Json.num (Int.ofNat t))]) ∧
      (∀ e, outcome = Except.error e →
        w.insight.meta = [("error", Json.str "Failed to send to ES")]) ∧
      w.insight.value = EventValue.None ∧
      w.insight.is_batch = false ∧
      w.attempts.map SendAttempt.pid = st.pipelines.map Prod.fst ∧
      (∀ pr ∈ st.pipelines, pr.2.isOpen = true →
        ({ pid := pr.1, ok := true } : SendAttempt) ∈ w.attempts) := by
  have hlen : st.clients.length ≠ 0 := by simpa [List.length_eq_zero] using hcl
  have hwork : ∀ d, (sendWorker d payload outcome now st.pipelines).attempts =
      st.pipelines.map (fun p => { pid := p.1, ok := p.2.isOpen }) := by
    intro d; rfl
  have hmain : ∀ d,
      (∀ t, outcome = Except.ok t →
        (sendWorker d payload outcome now st.pipelines).insight.meta =
          [("time", Json.num (Int.ofNat t))]) ∧
      (∀ e, outcome = Except.error e →
        (sendWorker d payload outcome now st.pipelines).insight.meta =
          [("error", Json.str "Failed to send to ES")]) ∧
      (sendWorker d payload outcome now st.pipelines).insight.value = EventValue.None ∧
      (sendWorker d payload outcome now st.pipelines).insight.is_batch = false ∧
      (sendWorker d payload outcome now st.pipelines).attempts.map SendAttempt.pid =
        st.pipelines.map Prod.fst ∧
      (∀ pr ∈ st.pipelines, pr.2.isOpen = true →
        ({ pid := pr.1, ok := true } : SendAttempt) ∈
          (sendWorker d payload outcome now st.pipelines).attempts) := by
    intro d
    refine ⟨?_, ?_, ?_, ?_, ?_, ?_⟩
    · intro t ht; subst ht; rfl
    · intro e he; subst he; rfl
    · cases outcome <;> rfl
    · cases outcome <;> rfl
    · rw [hwork, List.map_map]; rfl
    · intro pr hpr hopen
      have hmem := List.mem_map_of_mem
        (fun p : TremorURL × PipelineAddr => ({ pid := p.1, ok := p.2.isOpen } : SendAttempt)) hpr
      rw [hwork]
      simpa [hopen] using hmem
  unfold Elastic.enqueue_send_future
  rw [dif_neg hlen]
  cases hq : st.queue.enqueue false with
  | error e => exact ⟨_, _, _, rfl, hmain _⟩
  | ok q' => exact ⟨_, _, _, rfl, hmain _⟩

/-- Witness for C3: a failing flush on the two-pipeline sink. -/
theorem insight_per_admitted_unit_witness :
    ∃ r st2 w, elasticReady.enqueue_send_future "p"
        (Except.error (ErrorKind.Msg "conn refused")) 7 = some (r, st2, w) ∧
      (∀ t, Except.error (ErrorKind.Msg "conn refused") = Except.ok t →
        w.insight.meta = [("time", Json.num (Int.ofNat t))]) ∧
      (∀ e, Except.error (ErrorKind.Msg "conn refused") =
          (Except.error e : Except ErrorKind Nat) →
        w.insight.meta = [("error", Json.str "Failed to send to ES")]) ∧
      w.insight.value = EventValue.None ∧
      w.insight.is_batch = false ∧
      w.attempts.map SendAttempt.pid = elasticReady.pipelines.map Prod.fst ∧
      (∀ pr ∈ elasticReady.pipelines, pr.2.isOpen = true →
        ({ pid := pr.1, ok := true } : SendAttempt) ∈ w.attempts) :=
  insight_per_admitted_unit elasticReady "p"
    (Except.error (ErrorKind.Msg "conn refused")) 7 (by decide)

/-- The round-robin index sequence is the mod-`k` shift of `range`. -/
theorem rrIndices_eq_map (k : Nat) : ∀ (n idx : Nat),
    rrIndices idx k n = (List.range n).map (fun j => (idx + 1 + j) % k) := by
  intro n
  induction n with
  | zero => intro idx; rfl
  | succ n ih =>
    intro idx
    rw [rrIndices, ih, List.range_succ_eq_map, List.map_cons, List.map_map]
    congr 1
    simp only [nextClientIdx]
    apply List.map_congr_left
    intro j hj
    simp only [Function.comp_apply]
    rw [Nat.add_assoc ((idx + 1) % k) 1 j, Nat.mod_add_mod]
    congr 1
    omega

/-- Any `k` consecutive round-robin selections hit every index below
`k` exactly once. -/
theorem rrIndices_count (idx k : Nat) (hk : 1 ≤ k) (e : Nat) (he : e < k) :
    (rrIndices idx k k).count e = 1 := by
  have hmap := rrIndices_eq_map k k idx
  have hinj : ∀ a ∈ List.range k, ∀ b ∈ List.range k,
      (idx + 1 + a) % k = (idx + 1 + b) % k → a = b := by
    intro a ha b hb hab
    rw [List.mem_range] at ha hb
    have hcan : a ≡ b [MOD k] := Nat.ModEq.add_left_cancel' (idx + 1) hab
    unfold Nat.ModEq at hcan
    rw [Nat.mod_eq_of_lt ha, Nat.mod_eq_of_lt hb] at hcan
    exact hcan
  have hnodup : ((List.range k).map (fun j => (idx + 1 + j) % k)).Nodup :=
    List.Nodup.map_on hinj (List.nodup_range k)
  have hsub : ∀ x ∈ (List.range k).map (fun j => (idx + 1 + j) % k), x ∈ List.range k := by
    intro x hx
    obtain ⟨j, hj, rfl⟩ := List.mem_map.mp hx
    exact List.mem_range.mpr (Nat.mod_lt _ (by omega))
  have hperm : ((List.range k).map (fun j => (idx + 1 + j) % k)).Perm (List.range k) :=
    List.Subperm.perm_of_length_le (List.Nodup.subperm hnodup hsub) (by simp)
  rw [hmap, List.Perm.count_eq hperm]
  exact List.count_eq_one_of_mem (List.nodup_range k) (List.mem_range.mpr he)

/-- C8: destinations are selected round-robin.  The index advances by
exactly one modulo `k` on each admitted submission (`enqueue_send_future`
stores `(client_idx + 1) % k` back and uses that index's client as the
unit's destination), so any `k` consecutive admitted submissions use
each configured endpoint exactly once. -/
theorem round_robin_rotation (k : Nat) (hk : 1 ≤ k) :
    (∀ idx e, e < k → (rrIndices idx k k).count e = 1) ∧
    (∀ (st : Elastic) (payload : String) (outcome : Except ErrorKind Nat) (now : Nat)
        (r : Except ErrorKind Unit) (st2 : Elastic) (w : WorkResult),
      st.clients.length = k →
      st.enqueue_send_future payload outcome now = some (r, st2, w) →
      st2.client_idx = nextClientIdx st.client_idx k ∧
      st.clients[st2.client_idx]? = some w.destination) := by
  constructor
  · intro idx e he
    exact rrIndices_count idx k hk e he
  · intro st payload outcome now r st2 w hkl heq
    have hlen : st.clients.length ≠ 0 := by omega
    unfold Elastic.enqueue_send_future at heq
    rw [dif_neg hlen] at heq
    have hidx : nextClientIdx st.client_idx st.clients.length < st.clients.length :=
      Nat.mod_lt _ (Nat.pos_of_ne_zero hlen)
    cases hq : st.queue.enqueue false with
    | error e2 =>
      rw [hq] at heq
      simp only [Option.some.injEq, Prod.mk.injEq] at heq
      obtain ⟨-, hst2, hw⟩ := heq
      subst hst2; subst hw
      refine ⟨by rw [hkl], ?_⟩
      show st.clients[nextClientIdx st.client_idx st.clients.length]? = _
      rw [List.getElem?_eq_getElem hidx]
      rfl
    | ok q' =>
      rw [hq] at heq
      simp only [Option.some.injEq, Prod.mk.injEq] at heq
      obtain ⟨-, hst2, hw⟩ := heq
      subst hst2; subst hw
      refine ⟨by rw [hkl], ?_⟩
      show st.clients[nextClientIdx st.client_idx st.clients.length]? = _
      rw [List.getElem?_eq_getElem hidx]
      rfl

/-- The sink state after `elasticReady` admits one submission: the
round-robin index wrapped back to 0 (one client) and the queue holds
the new handle. -/
def elasticReadyAfter : Elastic :=
  { elasticReady with queue := { limit := 1, outstanding := [false] } }

/-- Witness for C8 at `k = 1`: one rotation step covers the single
endpoint once, and a concrete admitted submission stores the advanced
index and uses that client. -/
theorem round_robin_rotation_witness :
    ((rrIndices 0 1 1).count 0 = 1) ∧
    (elasticReadyAfter.client_idx = nextClientIdx elasticReady.client_idx 1 ∧
      elasticReady.clients[elasticReadyAfter.client_idx]? =
        some (sendWorker destOne "p" (Except.ok 3) 0 elasticReady.pipelines).destination) :=
  ⟨(round_robin_rotation 1 (by decide)).1 0 0 (by decide),
   (round_robin_rotation 1 (by decide)).2 elasticReady "p" (Except.ok 3) 0
     (Except.ok ()) elasticReadyAfter
     (sendWorker destOne "p" (Except.ok 3) 0 elasticReady.pipelines) rfl rfl⟩

/-- The pids of a spawned unit's send attempts are exactly the
snapshot's registered pipeline ids, in order. -/
theorem sendWorker_attempt_pids (d : Destination) (payload : String)
    (outcome : Except ErrorKind Nat) (now : Nat) (ps : Pipelines) :
    (sendWorker d payload outcome now ps).attempts.map SendAttempt.pid =
      ps.map Prod.fst := by
  show (ps.map fun p => ({ pid := p.1, ok := p.2.isOpen } : SendAttempt)).map
      SendAttempt.pid = ps.map Prod.fst
  rw [List.map_map]
  rfl

/-- Any unit spawned by `enqueue_send_future` is the send closure over
the caller's pipeline snapshot. -/
theorem enqueue_send_future_work (st : Elastic) (payload : String)
    (outcome : Except ErrorKind Nat) (now : Nat) (r : Except ErrorKind Unit)
    (st2 : Elastic) (w : WorkResult)
    (h : st.enqueue_send_future payload outcome now = some (r, st2, w)) :
    ∃ d, w = sendWorker d payload outcome now st.pipelines := by
  unfold Elastic.enqueue_send_future at h
  by_cases hl : st.clients.length = 0
  · rw [dif_pos hl] at h
    cases h
  · rw [dif_neg hl] at h
    cases hq : st.queue.enqueue false with
    | error e =>
      rw [hq] at h
      simp only [Option.some.injEq, Prod.mk.injEq] at h
      exact ⟨_, h.2.2.symm⟩
    | ok q' =>
      rw [hq] at h
      simp only [Option.some.injEq, Prod.mk.injEq] at h
      exact ⟨_, h.2.2.symm⟩

/-- Any unit spawned through the fall-through branch of `maybe_enque`
is the send closure over the caller's pipeline snapshot. -/
theorem maybeEnqueProceed_work (stp : Elastic) (payload : String)
    (outcome : Except ErrorKind Nat) (now : Nat) (er : EnqueResult)
    (h : maybeEnqueProceed stp payload outcome now = some er) :
    ∃ d, er.work = some (sendWorker d payload outcome now stp.pipelines) := by
  unfold maybeEnqueProceed at h
  cases he : stp.enqueue_send_future payload outcome now with
  | none =>
    rw [he] at h
    cases h
  | some t =>
    rcases t with ⟨r', st2, w'⟩
    obtain ⟨d, hw⟩ := enqueue_send_future_work stp payload outcome now r' st2 w' he
    rw [he] at h
    cases r' with
    | error e =>
      simp only [Option.some.injEq] at h
      subst h
      exact ⟨d, by rw [hw]⟩
    | ok u =>
      simp only [Option.some.injEq] at h
      subst h
      exact ⟨d, by rw [hw]⟩

/-- Any result of `maybe_enque` either spawned nothing or spawned the
send closure over the sink's pipeline snapshot. -/
theorem maybe_enque_work (st : Elastic) (payload : String)
    (outcome : Except ErrorKind Nat) (now : Nat) (er : EnqueResult)
    (h : st.maybe_enque payload outcome now = some er) :
    er.work = none ∨
      ∃ d, er.work = some (sendWorker d payload outcome now st.pipelines) := by
  simp only [Elastic.maybe_enque] at h
  split at h
  · split at h
    · simp only [Option.some.injEq] at h
      subst h
      exact Or.inl rfl
    · exact Or.inr (maybeEnqueProceed_work
        { st with queue := (st.queue.dequeue).2 } payload outcome now er h)
  · exact Or.inr (maybeEnqueProceed_work
      { st with queue := (st.queue.dequeue).2 } payload outcome now er h)

/-- The payload `buildPayload` produces for the singleton batch
`[evGood]`: the action line, a newline, the serialized document, a
newline. -/
def payloadGood : String :=
  (elasticActionLine "tremor" "log" none).toJsonString ++ "\n" ++
    ((Json.obj []).toJsonString ++ "\n") ++ ""

/-- C1 counterexample: on the overload/refusal path `on_event` delivers
no Insight at all — here a sink whose full queue holds one unfinished
unit and which has two registered pipelines processes a well-formed
event: the call returns with no work spawned (no Insight attempted for
any pipeline), refuting "exactly one Insight per registered pipeline on
every call". -/
theorem insight_every_call_cex :
    Elastic.on_event elasticFull [evGood] (Except.ok 5) 0 = some (elasticFull, none) ∧
    elasticFull.pipelines.length = 2 :=
  ⟨rfl, rfl⟩

/-- C1 amended: an Insight is broadcast only for admitted submissions:
whenever an Elastic `on_event` call spawns a unit, that unit attempts
exactly one Insight send per pipeline registered at submission time
(the attempt list's pids are exactly the registration table's keys);
refused or aborted calls spawn no unit (see the gating and
malformed-batch theorems), and the File sink's `on_event` performs no
Insight sends whatsoever. -/
theorem insight_only_on_admission :
    (∀ (st : Elastic) (subEvents : List Event) (outcome : Except ErrorKind Nat)
        (now : Nat) (p : Elastic × Option WorkResult) (w : WorkResult),
        Elastic.on_event st subEvents outcome now = some p → p.2 = some w →
        w.attempts.map SendAttempt.pid = st.pipelines.map Prod.fst) ∧
    (∀ (fs : FileOfframp) (encode : EventValue → Except ErrorKind EventValue)
        (subEvents : List Event), (fs.on_event encode subEvents).2 = []) := by
  constructor
  · intro st subEvents outcome now p w hp hw
    unfold Elastic.on_event at hp
    cases hbp : buildPayload subEvents with
    | none =>
      simp only [hbp, Option.some.injEq] at hp
      subst hp
      cases hw
    | some payload =>
      simp only [hbp] at hp
      cases hme : st.maybe_enque payload outcome now with
      | none =>
        rw [hme] at hp
        cases hp
      | some er =>
        rw [hme] at hp
        simp only [Option.map_some', Option.some.injEq] at hp
        subst hp
        rcases maybe_enque_work st payload outcome now er hme with hnone | ⟨d, hsome⟩
        · rw [hnone] at hw
          cases hw
        · rw [hsome] at hw
          simp only [Option.some.injEq] at hw
          subst hw
          exact sendWorker_attempt_pids d payload outcome now st.pipelines
  · intro fs encode subEvents
    rfl

/-- Witness for C1's amended statement: an admitted submission on the
two-pipeline sink attempts exactly the two registered pids, and a File
`on_event` call performs no sends. -/
theorem insight_only_on_admission_witness :
    (sendWorker destOne payloadGood (Except.ok 5) 0 elasticReady.pipelines).attempts.map
        SendAttempt.pid = elasticReady.pipelines.map Prod.fst ∧
    (fileReady.on_event codecRawOnJson [evGood]).2 = [] :=
  ⟨insight_only_on_admission.1 elasticReady [evGood] (Except.ok 5) 0
      (elasticReadyAfter, some (sendWorker destOne payloadGood (Except.ok 5) 0
        elasticReady.pipelines))
      (sendWorker destOne payloadGood (Except.ok 5) 0 elasticReady.pipelines) rfl rfl,
   insight_only_on_admission.2 fileReady codecRawOnJson [evGood]⟩

/-- The caller-visible part of `enqueue_send_future` (its `Result` and
the new sink state) does not depend on the flush outcome; the outcome
only flows into the spawned unit. -/
theorem enqueue_send_future_outcome_indep (st : Elastic) (payload : String)
    (o1 o2 : Except ErrorKind Nat) (now : Nat) :
    (st.enqueue_send_future payload o1 now).map (fun t => (t.1, t.2.1)) =
      (st.enqueue_send_future payload o2 now).map (fun t => (t.1, t.2.1)) := by
  by_cases hl : st.clients.length = 0
  · simp [Elastic.enqueue_send_future, hl]
  · unfold Elastic.enqueue_send_future
    rw [dif_neg hl, dif_neg hl]
    cases hq : st.queue.enqueue false <;> simp

/-- The caller-visible part of the fall-through branch of `maybe_enque`
does not depend on the flush outcome. -/
theorem maybeEnqueProceed_outcome_indep (st : Elastic) (payload : String)
    (o1 o2 : Except ErrorKind Nat) (now : Nat) :
    (maybeEnqueProceed st payload o1 now).map (fun r => (r.result, r.state)) =
      (maybeEnqueProceed st payload o2 now).map (fun r => (r.result, r.state)) := by
  have h := enqueue_send_future_outcome_indep st payload o1 o2 now
  unfold maybeEnqueProceed
  cases h1 : st.enqueue_send_future payload o1 now with
  | none =>
    cases h2 : st.enqueue_send_future payload o2 now with
    | none => rfl
    | some t2 =>
      rw [h1, h2] at h
      cases h
  | some t1 =>
    cases h2 : st.enqueue_send_future payload o2 now with
    | none =>
      rw [h1, h2] at h
      cases h
    | some t2 =>
      rw [h1, h2] at h
      rcases t1 with ⟨r1, s1, w1⟩
      rcases t2 with ⟨r2, s2, w2⟩
      simp only [Option.map_some', Option.some.injEq, Prod.mk.injEq] at h
      obtain ⟨hr, hs⟩ := h
      subst hr; subst hs
      cases r1 <;> simp

/-- C4 counterexample: the NewRelic sink does not capture external
delivery errors — a failing send is propagated as the `Result` of
`on_event` itself, and no Insight send is attempted, although a
pipeline is registered. -/
theorem delivery_error_capture_cex :
    NewRelic.on_event newrelicReady [Json.obj []]
        (Except.error (ErrorKind.Msg "error sending newrelic logs")) 0 =
      (Except.error (ErrorKind.Msg "error sending newrelic logs"), []) ∧
    newrelicReady.pipelines.length = 1 :=
  ⟨rfl, rfl⟩

/-- C4 amended: in the Elastic sink external delivery errors are
captured inside the asynchronous unit — the caller-visible result and
state of `maybe_enque` are identical whatever the flush outcome, and a
failing flush is converted into a failure Insight — while the NewRelic
sink instead propagates the delivery error to the caller of `on_event`
and attempts no Insight send. -/
theorem delivery_error_capture :
    (∀ (st : Elastic) (payload : String) (o1 o2 : Except ErrorKind Nat) (now : Nat),
        (st.maybe_enque payload o1 now).map (fun r => (r.result, r.state)) =
          (st.maybe_enque payload o2 now).map (fun r => (r.result, r.state))) ∧
    (∀ (d : Destination) (payload : String) (e : ErrorKind) (now : Nat) (ps : Pipelines),
        (sendWorker d payload (Except.error e) now ps).insight.meta =
          [("error", Json.str "Failed to send to ES")]) ∧
    (∀ (st : NewRelic) (values : List Json) (e : ErrorKind) (now : Int),
        NewRelic.on_event st values (Except.error e) now = (Except.error e, [])) := by
  refine ⟨?_, ?_, ?_⟩
  · intro st payload o1 o2 now
    cases hd : (st.queue.dequeue).1 with
    | error sde =>
      cases sde with
      | NotReady =>
        cases hcap : (st.queue.dequeue).2.has_capacity with
        | false => simp [Elastic.maybe_enque, hd, hcap]
        | true =>
          simp only [Elastic.maybe_enque, hd, hcap, Bool.not_true, Bool.false_eq_true,
            if_false]
          exact maybeEnqueProceed_outcome_indep
            { st with queue := (st.queue.dequeue).2 } payload o1 o2 now
      | Empty =>
        simp only [Elastic.maybe_enque, hd]
        exact maybeEnqueProceed_outcome_indep
          { st with queue := (st.queue.dequeue).2 } payload o1 o2 now
    | ok u =>
      simp only [Elastic.maybe_enque, hd]
      exact maybeEnqueProceed_outcome_indep
        { st with queue := (st.queue.dequeue).2 } payload o1 o2 now
  · intro d payload e now ps
    rfl
  · intro st values e now
    obtain ⟨logs, hlogs⟩ : ∃ logs,
        collectResults (values.map (NewRelic.value_to_newrelic_log now)) =
          Except.ok logs := by
      induction values with
      | nil => exact ⟨[], rfl⟩
      | cons v vs ih =>
        obtain ⟨logs, h⟩ := ih
        refine ⟨{ timestamp := ((v.get "timestamp").bind Json.asI64).getD now,
                  message := v.toJsonString } :: logs, ?_⟩
        simp [collectResults, NewRelic.value_to_newrelic_log, h, Except.map]
    simp [NewRelic.on_event, hlogs]

/-- A sub-event with no encodable value for the File sink. -/
def evNotJson : Event :=
  { is_batch := false, id := 2, meta := [], value := EventValue.None
    ingest_ns := 0, kind := none }

/-- A malformed head sub-event aborts the whole payload. -/
theorem buildPayload_cons_malformed (e0 : Event) (rest : List Event)
    (hm : elasticMalformed e0 = true) :
    buildPayload (e0 :: rest) = none := by
  unfold elasticMalformed at hm
  cases hlI : metaStr e0.meta "index" with
  | none => simp [buildPayload, hlI]
  | some index =>
    cases hlD : metaStr e0.meta "doc_type" with
    | none => simp [buildPayload, hlI, hlD]
    | some doc_type =>
      rw [hlI, hlD] at hm
      cases hm

/-- C5 counterexample: a batch whose first sub-event is malformed
(missing `index`/`doc_type` metadata) followed by a well-formed
sub-event, on a sink with free capacity: `on_event` returns with the
state unchanged and no unit spawned — the well-formed remainder of the
batch is *not* processed or delivered. -/
theorem malformed_subevent_cex :
    Elastic.on_event elasticReady [evBad, evGood] (Except.ok 5) 0 =
      some (elasticReady, none) ∧
    elasticMalformed evBad = true ∧
    elasticMalformed evGood = false :=
  ⟨rfl, rfl, rfl⟩

/-- C5 amended: a malformed sub-event does abort the rest of the batch
in the Elastic sink (any sub-event without string `index`/`doc_type`
metadata makes the payload loop return early: nothing is submitted and
the state is unchanged), and one failing entry rejects the whole batch
in the NewRelic sink (`collect` over `Result`); only the File sink
skips a sub-event whose encoding fails and still writes the remaining
sub-events. -/
theorem malformed_subevent_isolation :
    (∀ subEvents : List Event, (∃ e ∈ subEvents, elasticMalformed e = true) →
        buildPayload subEvents = none) ∧
    (∀ (st : Elastic) (subEvents : List Event) (outcome : Except ErrorKind Nat)
        (now : Nat), buildPayload subEvents = none →
        Elastic.on_event st subEvents outcome now = some (st, none)) ∧
    (∀ (xs : List (Except ErrorKind NewRelicLog)) (e : ErrorKind),
        Except.error e ∈ xs → ∃ e2, collectResults xs = Except.error e2) ∧
    (∀ (encode : EventValue → Except ErrorKind EventValue) (pre post : List Event)
        (bad : Event), (∀ raw, encode bad.value ≠ Except.ok (EventValue.Raw raw)) →
        fileWrites encode (pre ++ bad :: post) = fileWrites encode (pre ++ post)) := by
  refine ⟨?_, ?_, ?_, ?_⟩
  · intro subEvents h
    induction subEvents with
    | nil =>
      obtain ⟨e, he, -⟩ := h
      exact absurd he (List.not_mem_nil e)
    | cons e0 rest ih =>
      obtain ⟨e, he, hm⟩ := h
      rcases List.mem_cons.mp he with heq | hmem
      · subst heq
        exact buildPayload_cons_malformed e rest hm
      · cases hlI : metaStr e0.meta "index" with
        | none => simp [buildPayload, hlI]
        | some index =>
          cases hlD : metaStr e0.meta "doc_type" with
          | none => simp [buildPayload, hlI, hlD]
          | some doc_type =>
            simp [buildPayload, hlI, hlD, ih ⟨e, hmem, hm⟩]
  · intro st subEvents outcome now h
    simp [Elastic.on_event, h]
  · intro xs
    induction xs with
    | nil =>
      intro e h
      cases h
    | cons x rest ih =>
      intro e h
      cases x with
      | error e0 => exact ⟨e0, rfl⟩
      | ok a =>
        rcases List.mem_cons.mp h with heq | hmem
        · cases heq
        · obtain ⟨e2, h2⟩ := ih e hmem
          exact ⟨e2, by simp [collectResults, h2, Except.map]⟩
  · intro encode pre post bad hbad
    induction pre with
    | nil =>
      cases henc : encode bad.value with
      | error e => simp [fileWrites, henc]
      | ok v =>
        cases v with
        | Raw raw => exact absurd henc (hbad raw)
        | JSON j => simp [fileWrites, henc]
        | None => simp [fileWrites, henc]
    | cons p pre ih =>
      cases henc : encode p.value with
      | error e => simp [fileWrites, henc, ih]
      | ok v =>
        cases v with
        | Raw raw => simp [fileWrites, henc, ih]
        | JSON j => simp [fileWrites, henc, ih]
        | None => simp [fileWrites, henc, ih]

/-- Witness for C5's amended statement at concrete inputs. -/
theorem malformed_subevent_isolation_witness :
    buildPayload [evBad] = none ∧
    Elastic.on_event elasticReady [evBad] (Except.ok 5) 0 = some (elasticReady, none) ∧
    (∃ e2, collectResults [(Except.error (ErrorKind.Msg "bad entry") :
        Except ErrorKind NewRelicLog)] = Except.error e2) ∧
    fileWrites codecRawOnJson [evGood, evNotJson, evGood] =
      fileWrites codecRawOnJson [evGood, evGood] :=
  ⟨malformed_subevent_isolation.1 [evBad] ⟨evBad, List.mem_singleton_self evBad, rfl⟩,
   malformed_subevent_isolation.2.1 elasticReady [evBad] (Except.ok 5) 0 rfl,
   malformed_subevent_isolation.2.2.1 [Except.error (ErrorKind.Msg "bad entry")]
     (ErrorKind.Msg "bad entry") (List.mem_singleton_self _),
   malformed_subevent_isolation.2.2.2 codecRawOnJson [evGood] [evGood] evNotJson
     (fun raw h => nomatch h)⟩
